import Mathlib

/-!
Verification development for the admin-to-user report messaging subsystem
(backend/controllers/adminReportController.js `sendReportMessage`,
backend/models/ReportMessage.js schema, the Socket.IO room/join and
send handlers, and the user-side read-state endpoints).

Strings are modelled as Lean `String` (a wrapper around `List Char`);
JavaScript `String.prototype.trim` is modelled as removal of leading and
trailing whitespace characters, and `.length` as the character count.
A JavaScript field that is `undefined` is modelled as the empty string
where only its falsiness matters (an absent string field and `""` are
both falsy and flow identically through the controller), and as
`Option String` where presence matters (the optional reference ids).
-/

namespace Bot

/-- Whitespace test used by the model of JavaScript trim. -/
def isJsWs (c : Char) : Bool :=
  c = ' ' || c = '\t' || c = '\n' || c = '\r' || c = '\x0b' || c = '\x0c'

/-- Left trim on character lists: drop leading whitespace. -/
def trimL (s : List Char) : List Char := s.dropWhile isJsWs

/-- Right trim on character lists: drop trailing whitespace. -/
def trimR (s : List Char) : List Char := (s.reverse.dropWhile isJsWs).reverse

/-- Model of JavaScript trim on character lists: right trim, then left trim. -/
def jsTrimL (s : List Char) : List Char := trimL (trimR s)

/-- Model of JavaScript `s.trim()`. -/
def jsTrim (s : String) : String := ⟨jsTrimL s.data⟩

/-- Model of JavaScript `s.length` (character count). -/
def jsLen (s : String) : Nat := s.data.length

/- ### Facts about dropWhile and trim -/

theorem dropWhile_idem (p : Char → Bool) (l : List Char) :
    (l.dropWhile p).dropWhile p = l.dropWhile p := by
  induction l with
  | nil => rfl
  | cons a t ih =>
    by_cases h : p a
    · simpa [List.dropWhile_cons, h] using ih
    · simp [List.dropWhile_cons, h]

theorem dropWhile_len_le (p : Char → Bool) (l : List Char) :
    (l.dropWhile p).length ≤ l.length := by
  induction l with
  | nil => simp
  | cons a t ih =>
    by_cases h : p a
    · simp only [List.dropWhile_cons, h, if_true]
      exact Nat.le_succ_of_le ih
    · simp [List.dropWhile_cons, h]

theorem dropWhile_head_false (p : Char → Bool) (l : List Char) (a : Char) (t : List Char)
    (h : l.dropWhile p = a :: t) : p a = false := by
  induction l with
  | nil => simp at h
  | cons b s ih =>
    by_cases hb : p b
    · exact ih (by simpa [List.dropWhile_cons, hb] using h)
    · rw [List.dropWhile_cons, if_neg (by simpa using hb)] at h
      cases h
      simpa using hb

theorem dropWhile_eq_self_of_append (p : Char → Bool) (u v : List Char)
    (h : (u ++ v).dropWhile p = u ++ v) : u.dropWhile p = u := by
  cases u with
  | nil => rfl
  | cons a t =>
    by_cases ha : p a
    · exfalso
      rw [List.cons_append, List.dropWhile_cons, if_pos ha] at h
      have hlen := dropWhile_len_le p (t ++ v)
      rw [h] at hlen
      simp at hlen
    · simp [List.dropWhile_cons, ha]

theorem dropWhile_exists_append (p : Char → Bool) (l : List Char) :
    ∃ t, t ++ l.dropWhile p = l := by
  induction l with
  | nil => exact ⟨[], rfl⟩
  | cons a s ih =>
    by_cases h : p a
    · obtain ⟨t, ht⟩ := ih
      exact ⟨a :: t, by simp [List.dropWhile_cons, h, ht]⟩
    · exact ⟨[], by simp [List.dropWhile_cons, h]⟩

theorem trimR_idem (s : List Char) : trimR (trimR s) = trimR s := by
  simp [trimR, dropWhile_idem]

theorem trimR_fix_iff (s : List Char) :
    trimR s = s ↔ s.reverse.dropWhile isJsWs = s.reverse := by
  constructor
  · intro h
    conv_rhs => rw [← h]
    simp [trimR]
  · intro h
    simp [trimR, h]

theorem trimR_of_trimL (s : List Char) (h : trimR s = s) :
    trimR (trimL s) = trimL s := by
  rw [trimR_fix_iff] at h ⊢
  obtain ⟨t, ht⟩ := dropWhile_exists_append isJsWs s
  have hrev : (trimL s).reverse ++ t.reverse = s.reverse := by
    rw [← List.reverse_append]
    simp [trimL, ht]
  rw [← hrev] at h
  exact dropWhile_eq_self_of_append isJsWs _ _ h

theorem jsTrimL_idem (s : List Char) : jsTrimL (jsTrimL s) = jsTrimL s := by
  have hy : trimR (trimR s) = trimR s := trimR_idem s
  have h1 : trimR (trimL (trimR s)) = trimL (trimR s) := trimR_of_trimL _ hy
  simp only [jsTrimL, h1]
  simp [trimL, dropWhile_idem]

theorem jsTrim_idem (s : String) : jsTrim (jsTrim s) = jsTrim s := by
  simp [jsTrim, jsTrimL_idem]

theorem jsTrimL_head_not_ws (s : List Char) (a : Char) (t : List Char)
    (h : jsTrimL s = a :: t) : isJsWs a = false :=
  dropWhile_head_false isJsWs (trimR s) a t h

theorem jsTrimL_last_not_ws (s : List Char) (a : Char) (t : List Char)
    (h : (jsTrimL s).reverse = a :: t) : isJsWs a = false := by
  obtain ⟨u, hu⟩ := dropWhile_exists_append isJsWs (trimR s)
  have hrev : s.reverse.dropWhile isJsWs = (jsTrimL s).reverse ++ u.reverse := by
    have : (trimR s).reverse = s.reverse.dropWhile isJsWs := by simp [trimR]
    rw [← this, ← hu]
    simp [jsTrimL, trimL]
  rw [h] at hrev
  exact dropWhile_head_false isJsWs s.reverse a _ (by simpa using hrev)

/- ### Data model

The persisted message entity, following backend/models/ReportMessage.js.
`id` stands for the Mongo document id (assigned at persistence time),
`readAt` and `createdAt` are timestamps modelled as naturals. -/

structure StoredMessage where
  id : Nat
  userId : String
  orderId : Option String
  paymentId : Option String
  invoiceId : Option String
  title : String
  message : String
  status : String
  sentBy : String
  isRead : Bool
  readAt : Option Nat
  createdAt : Nat
deriving Repr, DecidableEq

/-- The message store (MongoDB ReportMessage collection): the persisted
messages and the next document id to assign. -/
structure Store where
  messages : List StoredMessage
  nextId : Nat
deriving Repr, DecidableEq

/-- The closed status enumeration of the ReportMessage schema. -/
def validStatuses : List String := ["Info", "Warning", "Issue", "Summary"]

/-- Outcome of a `ReportMessage.create` call: the stored document and the
grown store, or a schema validation rejection (mongoose ValidationError). -/
inductive CreateOutcome
  | ok (m : StoredMessage) (st : Store)
  | invalid (err : String)
deriving Repr, DecidableEq

/-- The stored document built by a successful `ReportMessage.create`: the
schema trims string fields (trim: true on orderId, paymentId, invoiceId,
title, message), `readAt` starts unset, `createdAt` is set by timestamps. -/
def mkStoredMessage (st : Store) (userId : String)
    (orderId paymentId invoiceId : Option String)
    (title msg status sentBy : String) (isRead : Bool) (now : Nat) : StoredMessage :=
  { id := st.nextId
    userId := userId
    orderId := orderId.map jsTrim
    paymentId := paymentId.map jsTrim
    invoiceId := invoiceId.map jsTrim
    title := jsTrim title
    message := jsTrim msg
    status := status
    sentBy := sentBy
    isRead := isRead
    readAt := none
    createdAt := now }

/-- `ReportMessage.create` as constrained by the schema in
backend/models/ReportMessage.js: required userId/title/message/status/sentBy,
maxlength 200 on title and 2000 on message (checked on the trimmed value,
since the trim setter runs before validation), status in the closed
enumeration. A missing required string is modelled as the empty string. -/
def reportMessageCreate (st : Store) (userId : String)
    (orderId paymentId invoiceId : Option String)
    (title msg status sentBy : String) (isRead : Bool) (now : Nat) : CreateOutcome :=
  if userId = "" then .invalid "User ID is required"
  else if jsTrim title = "" then .invalid "Report title is required"
  else if 200 < jsLen (jsTrim title) then .invalid "Title cannot exceed 200 characters"
  else if jsTrim msg = "" then .invalid "Report message is required"
  else if 2000 < jsLen (jsTrim msg) then .invalid "Message cannot exceed 2000 characters"
  else if ¬ validStatuses.contains status then
    .invalid "Status must be one of: Info, Warning, Issue, Summary"
  else if sentBy = "" then .invalid "Report sender is required"
  else
    .ok (mkStoredMessage st userId orderId paymentId invoiceId title msg status sentBy isRead now)
      { messages :=
          st.messages ++ [mkStoredMessage st userId orderId paymentId invoiceId title msg status sentBy isRead now]
        nextId := st.nextId + 1 }

/-- The body of a POST /api/admin/reports/send request, as destructured at
adminReportController.js line 594. `userId`, `title`, `message`, `status`
model an absent field as the empty string (both are falsy in JavaScript and
flow identically); the optional reference ids keep absence explicit. -/
structure SendBody where
  userId : String
  orderId : Option String
  paymentId : Option String
  invoiceId : Option String
  title : String
  message : String
  status : String
  sentBy : String
deriving Repr, DecidableEq

/-- The HTTP outcome of `sendReportMessage`:
400 validation responses, the 404 of the user-existence check, the 500 of
the catch block, and the 201 success carrying the persisted message. -/
inductive SendResult
  | badRequest (msg : String)
  | notFound (msg : String)
  | serverError (msg : String)
  | created (m : StoredMessage)
deriving Repr, DecidableEq

/-- `orderId || undefined` (and likewise paymentId, invoiceId) at
adminReportController.js lines 638-640: an empty string is falsy in
JavaScript, so it collapses to undefined. -/
def normRef (r : Option String) : Option String :=
  match r with
  | none => none
  | some s => if s = "" then none else some s

/-- `req.user?.id || sentBy` (adminReportController.js line 595): the
session identity when present and truthy, otherwise the client-supplied
`sentBy` body field. -/
def adminIdOf (reqUserId : Option String) (sentBy : String) : String :=
  match reqUserId with
  | some a => if a = "" then sentBy else a
  | none => sentBy

/-- `exports.sendReportMessage` of
backend/controllers/adminReportController.js lines 592-667.
`users` is the set of existing user ids (the external `User.findById`
collaborator); `reqUserId` is `req.user?.id` from the transport session
(none when `req.user` is absent or its `id` is undefined). The admin id
is `req.user?.id || sentBy` (line 595): it falls back to the
client-supplied `sentBy` body field when the session value is falsy. -/
def sendReportMessage (users : List String) (reqUserId : Option String)
    (body : SendBody) (st : Store) (now : Nat) : SendResult × Store :=
  if body.userId = "" then (.badRequest "User ID is required", st)
  else if body.title = "" ∨ body.message = "" then
    (.badRequest "Title and message are required", st)
  else if jsTrim body.title = "" ∨ jsTrim body.message = "" then
    (.badRequest "Title and message cannot be empty", st)
  else if ¬ validStatuses.contains body.status then
    (.badRequest "Valid status is required (Info, Warning, Issue, Summary)", st)
  else if ¬ users.contains body.userId then (.notFound "User not found", st)
  else
    match reportMessageCreate st body.userId (normRef body.orderId)
        (normRef body.paymentId) (normRef body.invoiceId)
        (jsTrim body.title) (jsTrim body.message) body.status
        (adminIdOf reqUserId body.sentBy) false now with
    | .ok m st2 => (.created m, st2)
    | .invalid e => (.serverError e, st)

/- ### Socket.IO room registry and handlers -/

/-- The Socket.IO room state: which connection (by id) has joined which
room key. Room keys are raw user-id strings. -/
structure Registry where
  rooms : List (String × Nat)
deriving Repr, DecidableEq

/-- The `joinUserRoom` socket handler as it appears in
src/WEBSOCKET_REPORT_MESSAGING.md lines 112-118:
`socket.on('joinUserRoom', (userId) => { socket.join(userId); ... })`.
It joins the connection to whatever room the client names; the identity
asserted by the connection's token is not consulted. `socket.join` is
idempotent, so membership is inserted at most once. -/
def joinUserRoom (reg : Registry) (connId : Nat) (userId : String) : Registry :=
  if reg.rooms.contains (userId, connId) then reg
  else { rooms := (userId, connId) :: reg.rooms }

/-- `io.to(roomKey)`: the connections currently in a room. -/
def membersOf (reg : Registry) (roomKey : String) : List Nat :=
  (reg.rooms.filter (fun rc => rc.1 = roomKey)).map (fun rc => rc.2)

/-- Observable events of the socket send pipeline, in emission order:
the durable store write, the `io.to(room).emit('receiveReportMessage')`
broadcast, the per-connection deliveries it fans out to, and the
`reportMessageSent` acknowledgment to the sender. -/
inductive Ev
  | persist (id : Nat)
  | broadcastTo (room : String) (id : Nat)
  | deliver (connId : Nat) (id : Nat)
  | ackSender (success : Bool)
deriving Repr, DecidableEq

/-- Payload of the `sendReportMessage` socket event (client-supplied;
`sentBy` included, as sent by frontend/src/services/socket.js callers). -/
structure SocketSendData where
  userId : String
  orderId : Option String
  paymentId : Option String
  invoiceId : Option String
  title : String
  message : String
  status : String
  sentBy : String
deriving Repr, DecidableEq

/-- Modelled from the spec: the `sendReportMessage` socket handler lives in
backend/server.js, which is not under src/; only its outline is quoted in
src/WEBSOCKET_REPORT_MESSAGING.md lines 120-129 — validate the data
(userId, title, message, sentBy required), create the ReportMessage in the
database, emit `receiveReportMessage` to the recipient's room, confirm to
the sender with `reportMessageSent`. A validation or persistence failure
acknowledges failure and emits nothing to the room. Returns the resulting
store and the ordered event trace. -/
def socketSendReportMessage (reg : Registry) (st : Store) (d : SocketSendData)
    (now : Nat) : Store × List Ev :=
  if d.userId = "" ∨ d.title = "" ∨ d.message = "" ∨ d.sentBy = "" then
    (st, [.ackSender false])
  else
    match reportMessageCreate st d.userId (normRef d.orderId) (normRef d.paymentId)
        (normRef d.invoiceId) d.title d.message d.status d.sentBy false now with
    | .ok m st2 =>
        (st2, .persist m.id :: .broadcastTo m.userId m.id ::
          ((membersOf reg m.userId).map (fun c => Ev.deliver c m.id) ++ [.ackSender true]))
    | .invalid _ => (st, [.ackSender false])

/- ### User-side read-state endpoints -/

/-- Result of PATCH /api/user/reports/messages/:messageId/read. -/
inductive MarkReadResult
  | notFound
  | forbidden
  | okRead (m : StoredMessage)
deriving Repr, DecidableEq

/-- Modelled from the spec: `markReportMessageAsRead` of
backend/controllers/userReportController.js is not under src/ (only its
route declaration in backend/routes/userReportRoutes.js line 35 is).
Following section 4.5 of the specification: nonexistent message id gives
NotFound with no side effect; a requesting identity differing from the
message's recipient gives Forbidden with no mutation; an already-read
message is a no-op success returning the original readAt; otherwise the
one-directional read transition fires, setting isRead and readAt. -/
def markReportMessageAsRead (st : Store) (messageId : Nat)
    (requestingIdentity : String) (now : Nat) : MarkReadResult × Store :=
  match st.messages.find? (fun m => decide (m.id = messageId)) with
  | none => (.notFound, st)
  | some m =>
      if requestingIdentity ≠ m.userId then (.forbidden, st)
      else if m.isRead then (.okRead m, st)
      else
        (.okRead { m with isRead := true, readAt := some now },
         { st with messages := (st.messages.map (fun x =>
             if x.id = messageId
             then { m with isRead := true, readAt := some now } else x)) })

/-- Modelled from the spec: `getMyReportMessages` of
backend/controllers/userReportController.js is not under src/. The list
query serves the recipient's own messages straight from the store. -/
def getMyReportMessages (st : Store) (uid : String) : List StoredMessage :=
  st.messages.filter (fun m => decide (m.userId = uid))

/- ### Characterization lemmas -/

theorem reportMessageCreate_ok {st : Store} {userId : String}
    {orderId paymentId invoiceId : Option String}
    {title msg status sentBy : String} {isRead : Bool} {now : Nat}
    {m : StoredMessage} {st2 : Store}
    (h : reportMessageCreate st userId orderId paymentId invoiceId title msg status sentBy
      isRead now = .ok m st2) :
    m = mkStoredMessage st userId orderId paymentId invoiceId title msg status sentBy isRead now ∧
    st2 = { messages := st.messages ++ [m], nextId := st.nextId + 1 } ∧
    userId ≠ "" ∧ jsTrim title ≠ "" ∧ jsLen (jsTrim title) ≤ 200 ∧
    jsTrim msg ≠ "" ∧ jsLen (jsTrim msg) ≤ 2000 ∧
    validStatuses.contains status = true ∧ sentBy ≠ "" := by
  unfold reportMessageCreate at h
  repeat' split at h
  all_goals first
    | exact (CreateOutcome.noConfusion h : _)
    | (obtain ⟨hm, hst⟩ := CreateOutcome.ok.inj h
       subst hm
       refine ⟨rfl, hst.symm, ?_, ?_, ?_, ?_, ?_, ?_, ?_⟩ <;> first
         | assumption
         | omega
         | simp_all)

theorem sendReportMessage_created {users : List String} {reqUserId : Option String}
    {body : SendBody} {st : Store} {now : Nat} {m : StoredMessage}
    (h : (sendReportMessage users reqUserId body st now).1 = .created m) :
    m = mkStoredMessage st body.userId (normRef body.orderId) (normRef body.paymentId)
      (normRef body.invoiceId) (jsTrim body.title) (jsTrim body.message) body.status
      (adminIdOf reqUserId body.sentBy) false now ∧
    (sendReportMessage users reqUserId body st now).2 =
      { messages := st.messages ++ [m], nextId := st.nextId + 1 } ∧
    body.userId ≠ "" ∧ jsTrim (jsTrim body.title) ≠ "" ∧
    jsLen (jsTrim (jsTrim body.title)) ≤ 200 ∧
    jsTrim (jsTrim body.message) ≠ "" ∧
    jsLen (jsTrim (jsTrim body.message)) ≤ 2000 ∧
    validStatuses.contains body.status = true ∧
    users.contains body.userId = true ∧
    adminIdOf reqUserId body.sentBy ≠ "" := by
  unfold sendReportMessage at h
  repeat' split at h
  all_goals try exact (SendResult.noConfusion h : _)
  case _ heq =>
    obtain ⟨h1, h2, h3, h4, h5, h6, h7, h8, h9⟩ := reportMessageCreate_ok heq
    simp only at h
    simp only [SendResult.created.injEq] at h
    subst h
    refine ⟨h1, ?_, by assumption, h4, h5, h6, h7, h8, ?_, h9⟩
    · simp only [sendReportMessage]
      rw [if_neg (by assumption), if_neg (by assumption), if_neg (by assumption),
        if_neg (by assumption), if_neg (by assumption), heq]
      exact h2
    · simp_all

theorem sendReportMessage_store_eq {users : List String} {reqUserId : Option String}
    {body : SendBody} {st : Store} {now : Nat}
    (h : ∀ m, (sendReportMessage users reqUserId body st now).1 ≠ .created m) :
    (sendReportMessage users reqUserId body st now).2 = st := by
  conv_lhs => rw [sendReportMessage]
  repeat' split
  all_goals try rfl
  case _ m st2 heq =>
    refine absurd ?_ (h m)
    simp only [sendReportMessage]
    rw [if_neg (by assumption), if_neg (by assumption), if_neg (by assumption),
      if_neg (by assumption), if_neg (by assumption), heq]

theorem sendReportMessage_success (users : List String) (reqUserId : Option String)
    (body : SendBody) (st : Store) (now : Nat)
    (h1 : body.userId ≠ "") (h2 : body.title ≠ "") (h3 : body.message ≠ "")
    (h4 : jsTrim body.title ≠ "") (h5 : jsTrim body.message ≠ "")
    (h6 : jsLen (jsTrim body.title) ≤ 200) (h7 : jsLen (jsTrim body.message) ≤ 2000)
    (h8 : validStatuses.contains body.status = true)
    (h9 : users.contains body.userId = true)
    (h10 : adminIdOf reqUserId body.sentBy ≠ "") :
    sendReportMessage users reqUserId body st now =
      (.created (mkStoredMessage st body.userId (normRef body.orderId) (normRef body.paymentId)
          (normRef body.invoiceId) (jsTrim body.title) (jsTrim body.message) body.status
          (adminIdOf reqUserId body.sentBy) false now),
       { messages := st.messages ++
           [mkStoredMessage st body.userId (normRef body.orderId) (normRef body.paymentId)
             (normRef body.invoiceId) (jsTrim body.title) (jsTrim body.message) body.status
             (adminIdOf reqUserId body.sentBy) false now]
         nextId := st.nextId + 1 }) := by
  have hc : reportMessageCreate st body.userId (normRef body.orderId) (normRef body.paymentId)
      (normRef body.invoiceId) (jsTrim body.title) (jsTrim body.message) body.status
      (adminIdOf reqUserId body.sentBy) false now =
      .ok (mkStoredMessage st body.userId (normRef body.orderId) (normRef body.paymentId)
          (normRef body.invoiceId) (jsTrim body.title) (jsTrim body.message) body.status
          (adminIdOf reqUserId body.sentBy) false now)
        { messages := st.messages ++
            [mkStoredMessage st body.userId (normRef body.orderId) (normRef body.paymentId)
              (normRef body.invoiceId) (jsTrim body.title) (jsTrim body.message) body.status
              (adminIdOf reqUserId body.sentBy) false now]
          nextId := st.nextId + 1 } := by
    unfold reportMessageCreate
    rw [if_neg h1, if_neg (by rw [jsTrim_idem]; exact h4),
      if_neg (by rw [jsTrim_idem]; exact Nat.not_lt.mpr h6),
      if_neg (by rw [jsTrim_idem]; exact h5),
      if_neg (by rw [jsTrim_idem]; exact Nat.not_lt.mpr h7),
      if_neg (not_not_intro h8), if_neg h10]
  simp only [sendReportMessage]
  rw [if_neg h1, if_neg (not_or.mpr ⟨h2, h3⟩), if_neg (not_or.mpr ⟨h4, h5⟩),
    if_neg (not_not_intro h8), if_neg (not_not_intro h9), hc]

theorem socketSendReportMessage_success (reg : Registry) (st : Store) (d : SocketSendData)
    (now : Nat)
    (h1 : d.userId ≠ "") (h2 : d.title ≠ "") (h3 : d.message ≠ "") (h4 : d.sentBy ≠ "")
    (h5 : jsTrim d.title ≠ "") (h6 : jsLen (jsTrim d.title) ≤ 200)
    (h7 : jsTrim d.message ≠ "") (h8 : jsLen (jsTrim d.message) ≤ 2000)
    (h9 : validStatuses.contains d.status = true) :
    socketSendReportMessage reg st d now =
      ({ messages := st.messages ++
           [mkStoredMessage st d.userId (normRef d.orderId) (normRef d.paymentId)
             (normRef d.invoiceId) d.title d.message d.status d.sentBy false now]
         nextId := st.nextId + 1 },
       .persist st.nextId :: .broadcastTo d.userId st.nextId ::
         ((membersOf reg d.userId).map (fun c => Ev.deliver c st.nextId) ++ [.ackSender true])) := by
  have hc : reportMessageCreate st d.userId (normRef d.orderId) (normRef d.paymentId)
      (normRef d.invoiceId) d.title d.message d.status d.sentBy false now =
      .ok (mkStoredMessage st d.userId (normRef d.orderId) (normRef d.paymentId)
          (normRef d.invoiceId) d.title d.message d.status d.sentBy false now)
        { messages := st.messages ++
            [mkStoredMessage st d.userId (normRef d.orderId) (normRef d.paymentId)
              (normRef d.invoiceId) d.title d.message d.status d.sentBy false now]
          nextId := st.nextId + 1 } := by
    unfold reportMessageCreate
    rw [if_neg h1, if_neg h5, if_neg (Nat.not_lt.mpr h6), if_neg h7,
      if_neg (Nat.not_lt.mpr h8), if_neg (not_not_intro h9), if_neg h4]
  simp only [socketSendReportMessage]
  rw [if_neg (by simp [h1, h2, h3, h4]), hc]
  simp [mkStoredMessage]

/-- The persisted document of a successful `markReportMessageAsRead`
lookup: an updated copy, found again by a find? over the updated list. -/
theorem find?_update_some (l : List StoredMessage) (i : Nat) (m2 : StoredMessage)
    (hm2 : m2.id = i) (mf : StoredMessage)
    (hf : l.find? (fun x => decide (x.id = i)) = some mf) :
    (l.map (fun x => if x.id = i then m2 else x)).find? (fun x => decide (x.id = i)) =
      some m2 := by
  induction l with
  | nil => simp at hf
  | cons a t ih =>
    by_cases ha : a.id = i
    · simp only [List.map_cons, if_pos ha]
      exact List.find?_cons_of_pos _ (by simp [hm2])
    · rw [List.find?_cons_of_neg _ (by simp [ha])] at hf
      simp only [List.map_cons, if_neg ha]
      rw [List.find?_cons_of_neg _ (by simp [ha])]
      exact ih hf

/-- Under distinct ids, any member with the looked-up id is the found one. -/
theorem find?_id_unique (l : List StoredMessage)
    (hnd : (l.map (fun m => m.id)).Nodup) (i : Nat) (mf m : StoredMessage)
    (hf : l.find? (fun x => decide (x.id = i)) = some mf) (hm : m ∈ l) (hid : m.id = i) :
    m = mf := by
  induction l with
  | nil => simp at hm
  | cons x t ih =>
    rw [List.map_cons, List.nodup_cons] at hnd
    by_cases hx : x.id = i
    · rw [List.find?_cons_of_pos _ (by simp [hx])] at hf
      have hxmf : x = mf := Option.some.inj hf
      rcases List.mem_cons.mp hm with hmx | hm
      · exact hmx.trans hxmf
      · exact absurd (List.mem_map.mpr ⟨m, hm, by omega⟩) hnd.1
    · rw [List.find?_cons_of_neg _ (by simp [hx])] at hf
      rcases List.mem_cons.mp hm with hmx | hm
      · exact absurd (hmx ▸ hid) hx
      · exact ih hnd.2 hf hm

theorem mem_of_index {α : Type} {l : List α} {n : Nat} {a : α}
    (h : l[n]? = some a) : a ∈ l := by
  obtain ⟨hlt, rfl⟩ := List.getElem?_eq_some.mp h
  exact List.getElem_mem hlt

/-- Branch analysis of `markReportMessageAsRead` when it returns success. -/
theorem markReportMessageAsRead_ok {st : Store} {messageId : Nat}
    {requestingIdentity : String} {now : Nat} {m1 : StoredMessage} {st1 : Store}
    (h : markReportMessageAsRead st messageId requestingIdentity now = (.okRead m1, st1)) :
    ∃ m, st.messages.find? (fun x => decide (x.id = messageId)) = some m ∧
      requestingIdentity = m.userId ∧
      ((m.isRead = true ∧ m1 = m ∧ st1 = st) ∨
       (m.isRead = false ∧ m1 = { m with isRead := true, readAt := some now } ∧
        st1 = { st with messages := (st.messages.map (fun x =>
          if x.id = messageId
          then { m with isRead := true, readAt := some now } else x)) })) := by
  unfold markReportMessageAsRead at h
  split at h
  · exact absurd (congrArg Prod.fst h) (by simp)
  case _ m hf =>
    split at h
    · exact absurd (congrArg Prod.fst h) (by simp)
    case _ hne =>
      refine ⟨m, hf, not_not.mp hne, ?_⟩
      split at h
      case _ hr =>
        obtain ⟨hl, hrt⟩ := Prod.mk.inj h
        exact Or.inl ⟨hr, (MarkReadResult.okRead.inj hl).symm, hrt.symm⟩
      case _ hr =>
        obtain ⟨hl, hrt⟩ := Prod.mk.inj h
        exact Or.inr ⟨Bool.eq_false_iff.mpr hr,
          (MarkReadResult.okRead.inj hl).symm, hrt.symm⟩

/-- The store after a `markReportMessageAsRead` is either untouched or the
single found unread message got its read transition. -/
theorem markRead_store_cases (st : Store) (messageId : Nat) (ident : String)
    (now : Nat) :
    (markReportMessageAsRead st messageId ident now).2 = st ∨
    ∃ mf, st.messages.find? (fun x => decide (x.id = messageId)) = some mf ∧
      ident = mf.userId ∧ mf.isRead = false ∧
      (markReportMessageAsRead st messageId ident now).2 =
        { st with messages := (st.messages.map (fun x =>
            if x.id = messageId
            then { mf with isRead := true, readAt := some now } else x)) } := by
  unfold markReportMessageAsRead
  split
  · exact Or.inl rfl
  case _ mf hf =>
    split
    · exact Or.inl rfl
    case _ hne =>
      split
      case _ hr => exact Or.inl rfl
      case _ hr =>
        exact Or.inr ⟨mf, hf, not_not.mp hne, Bool.eq_false_iff.mpr hr, rfl⟩

/-- The read-state invariant of the spec: `readAt` is non-null iff
`isRead` is true, for every persisted message. -/
def readInv (st : Store) : Prop :=
  ∀ m ∈ st.messages, (m.isRead = true ↔ m.readAt ≠ none)

/- ### Concrete fixtures for evaluation theorems -/

/-- The empty store. -/
def store0 : Store := { messages := [], nextId := 0 }

/-- A well-formed send body addressed to user u1; the `sentBy` body field
is the argument. -/
def bodyFor (sb : String) : SendBody :=
  { userId := "u1", orderId := none, paymentId := none, invoiceId := none,
    title := "Report", message := "Body", status := "Info", sentBy := sb }

/-- The message `bodyFor sb` persists into the empty store when the
admin id resolves to `sb`. -/
def storedFor (sb : String) : StoredMessage :=
  { id := 0, userId := "u1", orderId := none, paymentId := none,
    invoiceId := none, title := "Report", message := "Body", status := "Info",
    sentBy := sb, isRead := false, readAt := none, createdAt := 0 }

/- ### Claim theorems -/

/-- C1: the claim states the persisted `sentBy` is always the authenticated
session identity and never the client-supplied body field. The code
(adminReportController.js line 595, `req.user?.id || sentBy`) falls back to
the client body: with no session identity, two send requests identical
except for the client `sentBy` field persist different sender identities,
each equal to the client-supplied value. -/
theorem c1_sentBy_taken_from_client_body :
    (sendReportMessage ["u1"] none (bodyFor "adminA") store0 0).1 =
      .created (storedFor "adminA") ∧
    (sendReportMessage ["u1"] none (bodyFor "attacker") store0 0).1 =
      .created (storedFor "attacker") := by
  decide

/-- C2: the claim states `joinRoom` succeeds only when the claimed
recipient id equals the identity encoded in the connection's token. The
`joinUserRoom` handler (quoted in src/WEBSOCKET_REPORT_MESSAGING.md lines
112-118) runs `socket.join(userId)` unconditionally: every join request
adds the membership, for every claimed recipient id and every connection,
with no comparison against any asserted identity. -/
theorem c2_joinUserRoom_adds_membership_unconditionally :
    ∀ (reg : Registry) (connId : Nat) (claimedRecipientId : String),
      (claimedRecipientId, connId) ∈ (joinUserRoom reg connId claimedRecipientId).rooms := by
  intro reg connId claimed
  unfold joinUserRoom
  split
  case _ hc => simpa using hc
  case _ hc => exact List.mem_cons_self _ _

/-- A title of 201 identical non-whitespace characters. -/
def titleOver200 : String := ⟨List.replicate 201 'a'⟩

/-- C3 counterexample: a send whose title exceeds 200 units passes every
check in the controller (which never measures length) and is rejected only
by the schema inside `ReportMessage.create`; the catch block turns that
into the generic 500 failure response, not the controller's synchronous
400 validation response. The store is still unchanged. -/
theorem c3_oversized_title_gets_generic_failure :
    sendReportMessage ["u1"] (some "adminA")
      { bodyFor "x" with title := titleOver200 } store0 0 =
    (.serverError "Title cannot exceed 200 characters", store0) := by
  set_option maxRecDepth 4000 in decide

/-- C3 (amended): if the recipient id is missing, the title or body is
empty after trimming, the trimmed title exceeds 200 units, the trimmed
body exceeds 2000 units, or the category is outside the closed
enumeration, then send reports an error to the sender (the controller's
400 validation response for the first four controller-checked conditions,
the schema rejection surfaced as the generic 500 failure for the length
bounds) and no message is persisted: the store is unchanged. -/
theorem c3_invalid_send_rejected_store_unchanged
    (users : List String) (reqUserId : Option String) (body : SendBody)
    (st : Store) (now : Nat)
    (h : body.userId = "" ∨ jsTrim body.title = "" ∨ jsTrim body.message = "" ∨
         200 < jsLen (jsTrim body.title) ∨ 2000 < jsLen (jsTrim body.message) ∨
         validStatuses.contains body.status = false) :
    (∀ m, (sendReportMessage users reqUserId body st now).1 ≠ .created m) ∧
    (sendReportMessage users reqUserId body st now).2 = st := by
  have hnc : ∀ m, (sendReportMessage users reqUserId body st now).1 ≠ .created m := by
    intro m hm
    obtain ⟨-, -, hu, ht, hlt, hb, hlb, hs, -, -⟩ := sendReportMessage_created hm
    rw [jsTrim_idem] at ht hlt
    rw [jsTrim_idem] at hb hlb
    rcases h with h | h | h | h | h | h
    · exact hu h
    · exact ht h
    · exact hb h
    · exact absurd h (Nat.not_lt.mpr hlt)
    · exact absurd h (Nat.not_lt.mpr hlb)
    · rw [hs] at h
      cases h
  exact ⟨hnc, sendReportMessage_store_eq hnc⟩

/-- C3 witness: the amended theorem applied to a concrete send with a
missing recipient id. -/
theorem c3_witness :
    (∀ m, (sendReportMessage ["u1"] (some "adminA")
      { bodyFor "x" with userId := "" } store0 0).1 ≠ .created m) ∧
    (sendReportMessage ["u1"] (some "adminA")
      { bodyFor "x" with userId := "" } store0 0).2 = store0 :=
  c3_invalid_send_rejected_store_unchanged ["u1"] (some "adminA")
    { bodyFor "x" with userId := "" } store0 0 (Or.inl (by decide))

/-- C4: write-before-fanout on the socket send pipeline. Every broadcast
event in the trace is preceded by the persist event of the same message
id, and that message is in the resulting store at broadcast time; a send
that leaves the store unchanged (validation or persistence failure)
emits no broadcast at all. -/
theorem c4_write_before_fanout (reg : Registry) (st : Store) (d : SocketSendData)
    (now : Nat) :
    (∀ (j : Nat) (room : String) (i : Nat),
      ((socketSendReportMessage reg st d now).2)[j]? = some (Ev.broadcastTo room i) →
        (∃ k, k < j ∧
          ((socketSendReportMessage reg st d now).2)[k]? = some (Ev.persist i)) ∧
        (∃ m ∈ ((socketSendReportMessage reg st d now).1).messages, m.id = i)) ∧
    ((socketSendReportMessage reg st d now).1 = st →
      ∀ room i, Ev.broadcastTo room i ∉ (socketSendReportMessage reg st d now).2) := by
  unfold socketSendReportMessage
  split
  · constructor
    · intro j room i hj
      rcases j with _ | j
      · simp at hj
      · simp at hj
    · intro _ room i hmem
      simp at hmem
  · split
    case _ m st2 heq =>
      obtain ⟨hm, hst2, -⟩ := reportMessageCreate_ok heq
      constructor
      · intro j room i hj
        rcases j with _ | _ | j
        · simp at hj
        · simp only [List.getElem?_cons_succ, List.getElem?_cons_zero,
            Option.some.injEq] at hj
          obtain ⟨hroom, hi⟩ := Ev.broadcastTo.inj hj
          refine ⟨⟨0, by omega, by simp [hi]⟩, m, ?_, hi⟩
          rw [hst2]
          simp
        · simp only [List.getElem?_cons_succ] at hj
          have hmem := mem_of_index hj
          rcases List.mem_append.mp hmem with hmem | hmem
          · obtain ⟨c, -, hc⟩ := List.mem_map.mp hmem
            cases hc
          · simp at hmem
      · intro hst room i
        exfalso
        rw [hst2] at hst
        have := congrArg Store.nextId hst
        simp at this
    case _ e heq =>
      constructor
      · intro j room i hj
        rcases j with _ | j
        · simp at hj
        · simp at hj
      · intro _ room i hmem
        simp at hmem

/-- The socket registry used by the concrete broadcast evaluations:
connection 5 has joined the room of user u1. -/
def regW : Registry := { rooms := [("u1", 5)] }

/-- A well-formed socket send payload addressed to user u1. -/
def dataFor (sb : String) : SocketSendData :=
  { userId := "u1", orderId := none, paymentId := none, invoiceId := none,
    title := "Report", message := "Body", status := "Info", sentBy := sb }

/-- C4 witness: the theorem applied to a concrete send whose trace
broadcasts at position 1. -/
theorem c4_witness :
    (∃ k, k < 1 ∧
      ((socketSendReportMessage regW store0 (dataFor "adminA") 0).2)[k]? =
        some (Ev.persist 0)) ∧
    (∃ m ∈ ((socketSendReportMessage regW store0 (dataFor "adminA") 0).1).messages,
      m.id = 0) :=
  (c4_write_before_fanout regW store0 (dataFor "adminA") 0).1 1 "u1" 0 (by decide)

/-- C5: markRead is idempotent and the read transition fires at most once.
If a first call succeeds with message `m1`, a second call with the same
identity returns success with the identical message (hence identical
readAt) and leaves the store unchanged; and no message's isRead ever
moves from true to false (its readAt is untouched) across a markRead. -/
theorem c5_markRead_idempotent (st : Store) (messageId : Nat) (ident : String)
    (t1 t2 : Nat) (m1 : StoredMessage)
    (hnd : (st.messages.map (fun m => m.id)).Nodup)
    (h : (markReportMessageAsRead st messageId ident t1).1 = .okRead m1) :
    (markReportMessageAsRead (markReportMessageAsRead st messageId ident t1).2
      messageId ident t2).1 = .okRead m1 ∧
    (markReportMessageAsRead (markReportMessageAsRead st messageId ident t1).2
      messageId ident t2).2 = (markReportMessageAsRead st messageId ident t1).2 ∧
    m1.isRead = true ∧
    (∀ (k : Nat) (m m2 : StoredMessage), st.messages[k]? = some m →
      ((markReportMessageAsRead st messageId ident t1).2).messages[k]? = some m2 →
      m.isRead = true → m2.isRead = true ∧ m2.readAt = m.readAt) := by
  have hnoop : ∀ (stM : Store) (t : Nat) (mf : StoredMessage),
      stM.messages.find? (fun x => decide (x.id = messageId)) = some mf →
      ident = mf.userId → mf.isRead = true →
      markReportMessageAsRead stM messageId ident t = (.okRead mf, stM) := by
    intro stM t mf hf hid hr
    simp only [markReportMessageAsRead, hf]
    rw [if_neg (not_not_intro hid), if_pos hr]
  have hpair : markReportMessageAsRead st messageId ident t1 =
      (.okRead m1, (markReportMessageAsRead st messageId ident t1).2) := by
    rw [← h]
  obtain ⟨m, hf, hidm, hbranch⟩ := markReportMessageAsRead_ok hpair
  have hmid : m.id = messageId := by
    simpa using List.find?_some hf
  rcases hbranch with ⟨hr, hm1, hst1⟩ | ⟨hrf, hm1, hst1⟩
  · rw [hst1]
    have hsecond := hnoop st t2 m hf hidm hr
    refine ⟨by rw [hsecond, hm1], by rw [hsecond], by rw [hm1]; exact hr, ?_⟩
    intro k mA m2 hk hk2 hrA
    rw [hk] at hk2
    exact ⟨(Option.some.inj hk2) ▸ hrA, by rw [Option.some.inj hk2]⟩
  · have hf1 : ((markReportMessageAsRead st messageId ident t1).2).messages.find?
        (fun x => decide (x.id = messageId)) =
        some { m with isRead := true, readAt := some t1 } := by
      rw [hst1]
      exact find?_update_some st.messages messageId _ (by simpa using hmid) m hf
    have hsecond := hnoop (markReportMessageAsRead st messageId ident t1).2 t2
      { m with isRead := true, readAt := some t1 } hf1 (by simpa using hidm) rfl
    refine ⟨by rw [hsecond, hm1], by rw [hsecond], by rw [hm1], ?_⟩
    intro k mA m2 hk hk2 hrA
    rw [hst1] at hk2
    simp only [List.getElem?_map, hk, Option.map_some] at hk2
    by_cases hidA : mA.id = messageId
    · exfalso
      have hAm : mA = m :=
        find?_id_unique st.messages hnd messageId m mA hf (mem_of_index hk) hidA
      rw [hAm, hrf] at hrA
      cases hrA
    · simp [hidA] at hk2
      subst hk2
      exact ⟨hrA, rfl⟩

/-- The one-message store used by the markRead evaluations: a single
unread message with id 0 addressed to u1. -/
def stR : Store := { messages := [storedFor "adminA"], nextId := 1 }

/-- C5 witness: the theorem applied to a concrete store whose message is
read at time 5; the second call at time 9 returns the same readAt 5 and
leaves the store unchanged. -/
theorem c5_witness :
    (markReportMessageAsRead (markReportMessageAsRead stR 0 "u1" 5).2 0 "u1" 9).1 =
      .okRead { storedFor "adminA" with isRead := true, readAt := some 5 } ∧
    (markReportMessageAsRead (markReportMessageAsRead stR 0 "u1" 5).2 0 "u1" 9).2 =
      (markReportMessageAsRead stR 0 "u1" 5).2 :=
  ⟨(c5_markRead_idempotent stR 0 "u1" 5 9
      { storedFor "adminA" with isRead := true, readAt := some 5 }
      (by decide) (by decide)).1,
   (c5_markRead_idempotent stR 0 "u1" 5 9
      { storedFor "adminA" with isRead := true, readAt := some 5 }
      (by decide) (by decide)).2.1⟩

/-- C6: markRead by an identity other than the message's recipient is
Forbidden with no mutation; markRead of a nonexistent message id is
NotFound with no side effect. -/
theorem c6_markRead_forbidden_notFound (st : Store) (messageId : Nat)
    (ident : String) (now : Nat) :
    (st.messages.find? (fun x => decide (x.id = messageId)) = none →
      markReportMessageAsRead st messageId ident now = (.notFound, st)) ∧
    (∀ m, st.messages.find? (fun x => decide (x.id = messageId)) = some m →
      ident ≠ m.userId →
      markReportMessageAsRead st messageId ident now = (.forbidden, st)) := by
  constructor
  · intro hf
    unfold markReportMessageAsRead
    rw [hf]
  · intro m hf hne
    unfold markReportMessageAsRead
    rw [hf]
    exact if_pos hne

/-- C6 witness: the theorem applied to the one-message store: identity u2
is refused on u1's message 0 without mutation, and message 7 is not
found. -/
theorem c6_witness :
    markReportMessageAsRead stR 0 "u2" 3 = (.forbidden, stR) ∧
    markReportMessageAsRead stR 7 "u1" 3 = (.notFound, stR) :=
  ⟨(c6_markRead_forbidden_notFound stR 0 "u2" 3).2 (storedFor "adminA")
      (by decide) (by decide),
   (c6_markRead_forbidden_notFound stR 7 "u1" 3).1 (by decide)⟩

/-- C7: the read-state invariant (readAt non-null iff isRead) is preserved
by the REST send, the socket send and markRead; a newly persisted message
has isRead false and no readAt; and whenever markRead changes a message's
readAt, that message was unread with no readAt and is left read with
readAt set to the call's time (the false-to-true transition, exactly
once). -/
theorem c7_read_state_invariant (users : List String) (reqUserId : Option String)
    (body : SendBody) (reg : Registry) (d : SocketSendData) (st : Store)
    (messageId : Nat) (ident : String) (now : Nat) :
    (readInv st → readInv (sendReportMessage users reqUserId body st now).2) ∧
    (∀ m, (sendReportMessage users reqUserId body st now).1 = .created m →
      m.isRead = false ∧ m.readAt = none) ∧
    (readInv st → readInv (socketSendReportMessage reg st d now).1) ∧
    (readInv st → readInv (markReportMessageAsRead st messageId ident now).2) ∧
    ((st.messages.map (fun m => m.id)).Nodup → readInv st →
      ∀ (k : Nat) (m m2 : StoredMessage), st.messages[k]? = some m →
        ((markReportMessageAsRead st messageId ident now).2).messages[k]? = some m2 →
        m2.readAt ≠ m.readAt →
        m.isRead = false ∧ m.readAt = none ∧ m2.isRead = true ∧ m2.readAt = some now) := by
  refine ⟨?_, ?_, ?_, ?_, ?_⟩
  · intro hinv
    by_cases hc : ∀ m, (sendReportMessage users reqUserId body st now).1 ≠ .created m
    · rw [sendReportMessage_store_eq hc]
      exact hinv
    · push_neg at hc
      obtain ⟨m, hm⟩ := hc
      obtain ⟨hmk, hst2, -⟩ := sendReportMessage_created hm
      rw [hst2]
      intro x hx
      rcases List.mem_append.mp hx with hx | hx
      · exact hinv x hx
      · obtain rfl : x = m := by simpa using hx
        rw [hmk]
        simp [mkStoredMessage]
  · intro m hm
    obtain ⟨hmk, -⟩ := sendReportMessage_created hm
    rw [hmk]
    simp [mkStoredMessage]
  · intro hinv
    unfold socketSendReportMessage
    split
    · exact hinv
    · split
      case _ m st2 heq =>
        obtain ⟨hmk, hst2, -⟩ := reportMessageCreate_ok heq
        rw [hst2]
        intro x hx
        rcases List.mem_append.mp hx with hx | hx
        · exact hinv x hx
        · obtain rfl : x = m := by simpa using hx
          rw [hmk]
          simp [mkStoredMessage]
      case _ e heq => exact hinv
  · intro hinv
    rcases markRead_store_cases st messageId ident now with heq | ⟨mf, hf, hid, hrf, heq⟩
    · rw [heq]
      exact hinv
    · rw [heq]
      intro x hx
      obtain ⟨y, hy, rfl⟩ := List.mem_map.mp hx
      by_cases hyid : y.id = messageId
      · rw [if_pos hyid]
        simp
      · rw [if_neg hyid]
        exact hinv y hy
  · intro hnd hinv k m m2 hk hk2 hne
    rcases markRead_store_cases st messageId ident now with heq | ⟨mf, hf, hid, hrf, heq⟩
    · rw [heq, hk] at hk2
      exact absurd (by rw [Option.some.inj hk2]) hne
    · rw [heq] at hk2
      simp only [List.getElem?_map, hk, Option.map_some'] at hk2
      by_cases hmid2 : m.id = messageId
      · have hmmf : m = mf :=
          find?_id_unique st.messages hnd messageId mf m hf (mem_of_index hk) hmid2
        have hru : m.isRead = false := by rw [hmmf]; exact hrf
        have hra : m.readAt = none := by
          have := (hinv m (mem_of_index hk)).not
          simp only [hru, not_not] at this
          exact this.mp (by simp)
        rw [if_pos hmid2] at hk2
        have hk2e := Option.some.inj hk2
        refine ⟨hru, hra, ?_, ?_⟩
        · rw [← hk2e]
        · rw [← hk2e]
      · simp [hmid2] at hk2
        subst hk2
        exact absurd rfl hne

/-- C7 witness: the invariant-preservation conjuncts applied to concrete
stores satisfying the invariant. -/
theorem c7_witness :
    readInv (sendReportMessage ["u1"] (some "adminA") (bodyFor "a") store0 0).2 ∧
    readInv (markReportMessageAsRead stR 0 "u1" 5).2 :=
  ⟨(c7_read_state_invariant ["u1"] (some "adminA") (bodyFor "a") regW (dataFor "a")
      store0 0 "u1" 0).1 (by simp [readInv, store0]),
   (c7_read_state_invariant ["u1"] (some "adminA") (bodyFor "a") regW (dataFor "a")
      stR 0 "u1" 5).2.2.2.1 (by simp [readInv, stR, storedFor])⟩

/-- C8: sending to a recipient with zero live connections is not an
error. A valid REST send succeeds (201 created) with isRead false and the
message is served by the recipient's list query; a valid socket send with
zero room members persists, emits exactly one broadcast attempt, delivers
to nobody, acknowledges success without any retry, and the message is
served by the recipient's list query. -/
theorem c8_offline_send_succeeds (users : List String) (reqUserId : Option String)
    (body : SendBody) (reg : Registry) (d : SocketSendData) (st : Store) (now : Nat) :
    ((body.userId ≠ "" ∧ body.title ≠ "" ∧ body.message ≠ "" ∧
      jsTrim body.title ≠ "" ∧ jsTrim body.message ≠ "" ∧
      jsLen (jsTrim body.title) ≤ 200 ∧ jsLen (jsTrim body.message) ≤ 2000 ∧
      validStatuses.contains body.status = true ∧
      users.contains body.userId = true ∧ adminIdOf reqUserId body.sentBy ≠ "") →
      ∃ m, (sendReportMessage users reqUserId body st now).1 = .created m ∧
        m.isRead = false ∧
        m ∈ getMyReportMessages (sendReportMessage users reqUserId body st now).2
          body.userId) ∧
    ((d.userId ≠ "" ∧ d.title ≠ "" ∧ d.message ≠ "" ∧ d.sentBy ≠ "" ∧
      jsTrim d.title ≠ "" ∧ jsLen (jsTrim d.title) ≤ 200 ∧
      jsTrim d.message ≠ "" ∧ jsLen (jsTrim d.message) ≤ 2000 ∧
      validStatuses.contains d.status = true) →
      membersOf reg d.userId = [] →
      ∃ m, (socketSendReportMessage reg st d now).2 =
          [Ev.persist m.id, Ev.broadcastTo d.userId m.id, Ev.ackSender true] ∧
        m.isRead = false ∧
        m ∈ getMyReportMessages (socketSendReportMessage reg st d now).1 d.userId) := by
  constructor
  · intro ⟨h1, h2, h3, h4, h5, h6, h7, h8, h9, h10⟩
    rw [sendReportMessage_success users reqUserId body st now h1 h2 h3 h4 h5 h6 h7 h8 h9 h10]
    refine ⟨_, rfl, rfl, ?_⟩
    simp [getMyReportMessages, mkStoredMessage]
  · intro ⟨h1, h2, h3, h4, h5, h6, h7, h8, h9⟩ hmem
    rw [socketSendReportMessage_success reg st d now h1 h2 h3 h4 h5 h6 h7 h8 h9]
    refine ⟨mkStoredMessage st d.userId (normRef d.orderId) (normRef d.paymentId)
      (normRef d.invoiceId) d.title d.message d.status d.sentBy false now, ?_, rfl, ?_⟩
    · rw [hmem]
      simp [mkStoredMessage]
    · simp [getMyReportMessages, mkStoredMessage]

/-- C8 witness: the theorem applied to a valid concrete send while the
registry has no member in u1's room. -/
theorem c8_witness :
    (∃ m, (sendReportMessage ["u1"] (some "adminA") (bodyFor "a") store0 3).1 =
        .created m ∧
      m.isRead = false ∧
      m ∈ getMyReportMessages
        (sendReportMessage ["u1"] (some "adminA") (bodyFor "a") store0 3).2 "u1") ∧
    (∃ m, (socketSendReportMessage { rooms := [] } store0 (dataFor "adminA") 3).2 =
        [Ev.persist m.id, Ev.broadcastTo "u1" m.id, Ev.ackSender true] ∧
      m.isRead = false ∧
      m ∈ getMyReportMessages
        (socketSendReportMessage { rooms := [] } store0 (dataFor "adminA") 3).1 "u1") :=
  ⟨(c8_offline_send_succeeds ["u1"] (some "adminA") (bodyFor "a") { rooms := [] }
      (dataFor "adminA") store0 3).1 (by decide),
   (c8_offline_send_succeeds ["u1"] (some "adminA") (bodyFor "a") { rooms := [] }
      (dataFor "adminA") store0 3).2 (by decide) (by decide)⟩

/-- C9: an optional reference field (orderId, paymentId, invoiceId) that
is absent or the empty string in the request is persisted as absent,
never as an empty string (`orderId || undefined` at
adminReportController.js lines 638-640). -/
theorem c9_empty_refs_persisted_absent (users : List String)
    (reqUserId : Option String) (body : SendBody) (st : Store) (now : Nat)
    (m : StoredMessage)
    (h : (sendReportMessage users reqUserId body st now).1 = .created m) :
    ((body.orderId = none ∨ body.orderId = some "") → m.orderId = none) ∧
    ((body.paymentId = none ∨ body.paymentId = some "") → m.paymentId = none) ∧
    ((body.invoiceId = none ∨ body.invoiceId = some "") → m.invoiceId = none) := by
  obtain ⟨hmk, -⟩ := sendReportMessage_created h
  rw [hmk]
  refine ⟨?_, ?_, ?_⟩ <;>
    · intro hr
      rcases hr with hr | hr <;> simp [mkStoredMessage, normRef, hr]

/-- C9 witness: the theorem applied to a send whose orderId is the empty
string, paymentId is absent and invoiceId is the empty string. -/
theorem c9_witness :
    (let sent := sendReportMessage ["u1"] (some "adminA")
      { bodyFor "a" with orderId := some "", paymentId := none, invoiceId := some "" }
      store0 0
    ∃ m, sent.1 = .created m ∧
      m.orderId = none ∧ m.paymentId = none ∧ m.invoiceId = none) := by
  refine ⟨storedFor "adminA", by decide, ?_⟩
  have h := c9_empty_refs_persisted_absent ["u1"] (some "adminA")
    { bodyFor "a" with orderId := some "", paymentId := none, invoiceId := some "" }
    store0 0 (storedFor "adminA") (by decide)
  exact ⟨h.1 (Or.inr rfl), h.2.1 (Or.inl rfl), h.2.2 (Or.inr rfl)⟩

/-- C10: for every successful send the persisted title and body are the
request title and body with leading and trailing whitespace removed, and
a persisted title or body never starts or ends with whitespace (it is a
fixed point of trimming, and its first and last characters are
non-whitespace). -/
theorem c10_persisted_title_body_trimmed (users : List String)
    (reqUserId : Option String) (body : SendBody) (st : Store) (now : Nat)
    (m : StoredMessage)
    (h : (sendReportMessage users reqUserId body st now).1 = .created m) :
    m.title = jsTrim body.title ∧ m.message = jsTrim body.message ∧
    jsTrim m.title = m.title ∧ jsTrim m.message = m.message ∧
    (∀ (a : Char) (t : List Char), m.title.data = a :: t → isJsWs a = false) ∧
    (∀ (a : Char) (t : List Char), m.title.data.reverse = a :: t → isJsWs a = false) ∧
    (∀ (a : Char) (t : List Char), m.message.data = a :: t → isJsWs a = false) ∧
    (∀ (a : Char) (t : List Char), m.message.data.reverse = a :: t → isJsWs a = false) := by
  obtain ⟨hmk, -⟩ := sendReportMessage_created h
  have htitle : m.title = jsTrim (jsTrim body.title) := by rw [hmk]; rfl
  have hmsg : m.message = jsTrim (jsTrim body.message) := by rw [hmk]; rfl
  have htd : m.title.data = jsTrimL ((jsTrim body.title).data) := by rw [htitle]; rfl
  have hmd : m.message.data = jsTrimL ((jsTrim body.message).data) := by rw [hmsg]; rfl
  refine ⟨htitle.trans (jsTrim_idem _), hmsg.trans (jsTrim_idem _), ?_, ?_, ?_, ?_, ?_, ?_⟩
  · rw [htitle, jsTrim_idem, jsTrim_idem]
  · rw [hmsg, jsTrim_idem, jsTrim_idem]
  · intro a t hat
    rw [htd] at hat
    exact jsTrimL_head_not_ws _ a t hat
  · intro a t hat
    rw [htd] at hat
    exact jsTrimL_last_not_ws _ a t hat
  · intro a t hat
    rw [hmd] at hat
    exact jsTrimL_head_not_ws _ a t hat
  · intro a t hat
    rw [hmd] at hat
    exact jsTrimL_last_not_ws _ a t hat

/-- C10 witness: a send whose title and body carry surrounding whitespace
persists them trimmed. -/
theorem c10_witness :
    (sendReportMessage ["u1"] (some "adminA")
      { bodyFor "a" with title := "  Report  ", message := " Body " } store0 0).1 =
      .created (storedFor "adminA") ∧
    (storedFor "adminA").title = jsTrim "  Report  " ∧
    (storedFor "adminA").message = jsTrim " Body " ∧
    jsTrim (storedFor "adminA").title = (storedFor "adminA").title := by
  have h := c10_persisted_title_body_trimmed ["u1"] (some "adminA")
    { bodyFor "a" with title := "  Report  ", message := " Body " } store0 0
    (storedFor "adminA") (by decide)
  exact ⟨by decide, h.1, h.2.1, h.2.2.1⟩

end Bot
